import Mathlib

/-!
# ClusterQueue: a shallow embedding of the claim-and-execute core

This file embeds the data model and the store-facing operations of the
ClusterQueue scheduler (`scheduler/orchestrator.py`, `scheduler/models/*.py`,
`scheduler/helpers/cli.py`, `scheduler/runners/compute_node_multi.py`) as Lean
definitions and proves properties of the claim protocol, the eligibility
filter, the poll ordering, the worker state machine, the log-file bracketing
and the record constructors.

The repository's store adapter (`scheduler.helpers.db`) is not part of the
source tree; only its callers are.  Its operations (`execute_queries`,
`execute_sql`) forward SQL text, written by the callers, to a transactional
SQL store.  Following the specification (the store gives single-row atomicity
of conditional updates; updates touch exactly the rows matched by their WHERE
clause; selects return the matched rows), every SQL statement appearing in the
source is translated here into a pure function on an explicit table state: a
`List Job` for the `jobs` table and a `List NodeRow` for the `nodes` table.
Timestamps are modelled as natural numbers; each call site that interpolates
`datetime.now()` takes the corresponding instant as an explicit parameter.
-/

namespace ClusterQueue

/-- Result metadata written by `handle_job` (orchestrator.py lines 337-345):
`returncode`, `start_timestamp`, `end_timestamp`, `duration_s`.  The JSONB
column is modelled by this record of exactly the keys the worker writes. -/
structure ResultMetadata where
  returncode : Int
  start_timestamp : Nat
  end_timestamp : Nat
  duration_s : Nat
deriving DecidableEq, Repr

/-- The `Job` record of `scheduler/models/job.py` (a pydantic `BaseModel`).
Field names and optionality follow the Python class: `job_id` is absent before
insertion, `job_tags` distinguishes an absent (`None` / SQL `NULL`) tag list
from a present (possibly empty) one, and `job_assigned_node` and
`job_assigned_node_processor` are nullable.  Environment variables and job
metadata are string-keyed mappings, modelled as association lists. -/
structure Job where
  job_id : Option Nat := none
  job_payload : String
  job_env_variables : Option (List (String × String)) := none
  job_tags : Option (List String) := none
  job_status : String
  job_last_updated : Nat
  job_submission_time : Nat
  job_assigned_node : Option String := none
  job_assigned_node_processor : Option Int := none
  job_result_metadata : Option ResultMetadata := none
  job_metadata : Option (List (String × String)) := none
deriving DecidableEq, Repr

/-- The `Node` record of `scheduler/models/node.py` (a pydantic `BaseModel`). -/
structure Node where
  hostname : String
  status : String
  tags : List String
  num_parallel_jobs : Int := 1
  last_seen : Nat
deriving DecidableEq, Repr

/-- A row of the `nodes` table (see `Node.init_table_query`). -/
structure NodeRow where
  node_hostname : String
  node_status : String
  node_tags : Option (List String) := none
  node_num_parallel_jobs : Option Int := none
  node_last_seen : Nat
deriving DecidableEq, Repr

/-- The `jobs` table. -/
abbrev JobsTable := List Job

/-- Modelled from the spec: `scheduler.helpers.db` (absent from the source
tree) runs a `SELECT` and the callers read the first returned row
(`.iloc[0]`).  `rowOf jid tbl` is the first row of the `jobs` table whose
`job_id` equals `jid`, as a `SELECT ... WHERE job_id = {jid}` returns it;
`job_id` is the table's primary key, so at most one row matches. -/
def rowOf (jid : Nat) (tbl : JobsTable) : Option Job :=
  tbl.find? (fun r => r.job_id == some jid)

/-- The per-row effect of the conditional UPDATE issued by `claim_job`
(orchestrator.py lines 199-206): rows with `job_id = jid` and
`job_status = 'PENDING'` receive the caller's node, processor index,
status `CLAIMED` and a fresh `last_updated`; all other rows are unchanged. -/
def claimRowUpdate (host : String) (proc : Int) (jid : Nat) (now : Nat)
    (r : Job) : Job :=
  if r.job_id = some jid ∧ r.job_status = "PENDING" then
    { r with job_assigned_node := some host,
             job_assigned_node_processor := some proc,
             job_status := "CLAIMED",
             job_last_updated := now }
  else r

/-- Modelled from the spec: the store (`db.execute_queries`, absent from the
source tree) applies an UPDATE atomically to every row matched by its WHERE
clause.  This is the UPDATE of `claim_job` applied to the `jobs` table. -/
def claimUpdate (host : String) (proc : Int) (jid : Nat) (now : Nat)
    (tbl : JobsTable) : JobsTable :=
  tbl.map (claimRowUpdate host proc jid now)

/-- The read-back check of `claim_job` (orchestrator.py lines 217-237):
select `(job_assigned_node, job_assigned_node_processor)` for `job_id = jid`;
if no row comes back the claim fails, otherwise it succeeds exactly when the
read-back equals the caller's `(host, proc)`. -/
def claimReadback (host : String) (proc : Int) (jid : Nat)
    (tbl : JobsTable) : Bool :=
  match rowOf jid tbl with
  | none => false
  | some r =>
      r.job_assigned_node == some host &&
        r.job_assigned_node_processor == some proc

/-- Function `claim_job` (orchestrator.py lines 185-237): one conditional UPDATE
followed by the read-back check.  Returns the success flag together with the
table, which the UPDATE may have changed. -/
def claim_job (host : String) (proc : Int) (jid : Nat) (now : Nat)
    (tbl : JobsTable) : Bool × JobsTable :=
  let tbl' := claimUpdate host proc jid now tbl
  (claimReadback host proc jid tbl', tbl')

/-- Function `update_job_status` (orchestrator.py lines 240-265): an unconditional
UPDATE of `job_status` and `job_last_updated` on the row with the given jid.
It does not touch `job_result_metadata`. -/
def update_job_status (jid : Nat) (status : String) (now : Nat)
    (tbl : JobsTable) : JobsTable :=
  tbl.map (fun r =>
    if r.job_id = some jid then
      { r with job_status := status, job_last_updated := now }
    else r)

/-- The first UPDATE of `handle_job` (orchestrator.py lines 281-293): set the
job's status to `RUNNING`, unconditionally by jid. -/
def setRunningWrite (jid : Nat) (now : Nat) (tbl : JobsTable) : JobsTable :=
  tbl.map (fun r =>
    if r.job_id = some jid then
      { r with job_status := "RUNNING", job_last_updated := now }
    else r)

/-- The final UPDATE of `handle_job` (orchestrator.py lines 358-371): set
status `COMPLETED` and write `job_result_metadata`, with a WHERE clause on
`job_id` only — it is not conditioned on the current status. -/
def completedWrite (jid : Nat) (now : Nat) (meta : ResultMetadata)
    (tbl : JobsTable) : JobsTable :=
  tbl.map (fun r =>
    if r.job_id = some jid then
      { r with job_status := "COMPLETED",
               job_last_updated := now,
               job_result_metadata := some meta }
    else r)

/-- The jobs-table UPDATE of `stop_node` (orchestrator.py lines 394-400):
every job assigned to the host and currently `RUNNING` becomes
`INTERRUPTED`. -/
def interruptJobsWrite (hostname : String) (now : Nat)
    (tbl : JobsTable) : JobsTable :=
  tbl.map (fun r =>
    if r.job_assigned_node = some hostname ∧ r.job_status = "RUNNING" then
      { r with job_status := "INTERRUPTED", job_last_updated := now }
    else r)

/-- The nodes-table UPDATE of `stop_node` (orchestrator.py lines 387-392). -/
def stopNodeWrite (hostname : String) (now : Nat)
    (nodes : List NodeRow) : List NodeRow :=
  nodes.map (fun n =>
    if n.node_hostname = hostname then
      { n with node_status := "STOPPED", node_last_seen := now }
    else n)

/-- Function `stop_node` (orchestrator.py lines 374-413): one batch holding the node
UPDATE and the job-interruption UPDATE. -/
def stop_node (hostname : String) (now : Nat)
    (st : List NodeRow × JobsTable) : List NodeRow × JobsTable :=
  (stopNodeWrite hostname now st.1, interruptJobsWrite hostname now st.2)

/-- Outcome of `cli.execute_job` (helpers/cli.py lines 96-161) as observed by
`handle_job`: `subprocess.run` is called with `check=False`, so a spawned
child that exits with any code `rc` yields `ok rc` (no exception); only a
failure of the executor itself (e.g. inability to spawn) raises, yielding
`err`. -/
inductive ExecResult where
  | ok (returncode : Int)
  | err
deriving DecidableEq, Repr

/-- The jobs-table effect of `handle_job` (orchestrator.py lines 268-371):
mark the job `RUNNING`, run the executor, and on a normal return (any exit
code) write `COMPLETED` together with the result metadata
`{returncode, start_timestamp, end_timestamp, duration_s = end - start}`.
If the executor raises, the exception propagates after the `RUNNING` write:
the `error` branch carries the table at that point. -/
def handle_job (jid : Nat) (tRun : Nat) (start endT : Nat) (tDone : Nat)
    (exec : ExecResult) (tbl : JobsTable) : Except JobsTable JobsTable :=
  let tbl1 := setRunningWrite jid tRun tbl
  match exec with
  | .err => .error tbl1
  | .ok rc =>
      let meta : ResultMetadata :=
        { returncode := rc,
          start_timestamp := start,
          end_timestamp := endT,
          duration_s := endT - start }
      .ok (completedWrite jid tDone meta tbl1)

/-- The job-handling step of the multi-processor loop
(compute_node_multi.py lines 136-147): call `handle_job`; if it raises,
write status `FAILED` through `update_job_status`. -/
def processJob (jid : Nat) (tRun : Nat) (start endT : Nat) (tDone : Nat)
    (tFail : Nat) (exec : ExecResult) (tbl : JobsTable) : JobsTable :=
  match handle_job jid tRun start endT tDone exec tbl with
  | .ok tbl' => tbl'
  | .error tbl' => update_job_status jid "FAILED" tFail tbl'

/-- SQL array overlap `job_tags && tags` (models/job.py line 167): the two
arrays share at least one element. -/
def tagsOverlap (a b : List String) : Bool :=
  a.any (fun t => b.contains t)

/-- SQL array containment `job_tags <@ tags` (models/job.py line 167): every
element of the first array is in the second. -/
def tagsContainedIn (a b : List String) : Bool :=
  a.all (fun t => b.contains t)

/-- The WHERE clause of `Job.get_pending_jobs` (models/job.py lines 148-171).
With an empty node tag list the query keeps only PENDING jobs whose
`job_tags` is NULL; otherwise it keeps PENDING jobs whose `job_tags` is NULL
or overlaps the node tags while being contained in them. -/
def pendingEligible (nodeTags : List String) (r : Job) : Bool :=
  if nodeTags.isEmpty then
    r.job_status == "PENDING" && r.job_tags == none
  else
    r.job_status == "PENDING" &&
      (match r.job_tags with
       | none => true
       | some jt => tagsOverlap jt nodeTags && tagsContainedIn jt nodeTags)

/-- Modelled from the spec: the store (`db.execute_sql`, absent from the
source tree) evaluates `ORDER BY job_submission_time LIMIT {limit}`.  SQL
specifies the sort key but leaves the relative order of rows with equal
`job_submission_time` open (the query has no tie-break column); the model
resolves that freedom with a stable sort, keeping the table's row order
among ties. -/
def orderBySubmissionTime (rows : List Job) : List Job :=
  rows.insertionSort (fun a b => a.job_submission_time ≤ b.job_submission_time)

instance : IsTotal Job
    (fun a b => a.job_submission_time ≤ b.job_submission_time) :=
  ⟨fun a b => Nat.le_total a.job_submission_time b.job_submission_time⟩

instance : IsTrans Job
    (fun a b => a.job_submission_time ≤ b.job_submission_time) :=
  ⟨fun _ _ _ => Nat.le_trans⟩

/-- Function `Job.get_pending_jobs` (models/job.py lines 133-192): filter by the
eligibility WHERE clause, order by `job_submission_time`, and return at most
`limit` rows. -/
def get_pending_jobs (nodeTags : List String) (limit : Nat)
    (tbl : JobsTable) : List Job :=
  (orderBySubmissionTime (tbl.filter (pendingEligible nodeTags))).take limit

/-- One iteration of the claiming part of the multi-processor loop
(compute_node_multi.py lines 92-147): poll with `limit=1`; with no candidate
the processor snoozes (no jobs-table change); otherwise it tries to claim the
first candidate and runs `processJob` only on success.  Rows fetched from the
store always carry a `job_id`; the `none` branch is unreachable for them and
modelled as a no-op. -/
def processorIteration (host : String) (proc : Int) (tags : List String)
    (tClaim tRun start endT tDone tFail : Nat) (exec : ExecResult)
    (tbl : JobsTable) : JobsTable :=
  match get_pending_jobs tags 1 tbl with
  | [] => tbl
  | job :: _ =>
      match job.job_id with
      | none => tbl
      | some jid =>
          let r := claim_job host proc jid tClaim tbl
          if r.1 then processJob jid tRun start endT tDone tFail exec r.2
          else r.2

/-! ## Interleavings of concurrent `claim_job` calls

Each `claim_job` call performs two store operations: its conditional UPDATE
and its read-back SELECT, each atomic at the store.  An interleaving of `M`
concurrent calls on the same `job_id` is any sequence of these `2·M` events
in which each call's UPDATE precedes its read-back. -/

/-- One concurrent caller of `claim_job`: its hostname, processor index, and
the timestamp its UPDATE interpolates. -/
structure ClaimCall where
  host : String
  proc : Int
  now : Nat
deriving DecidableEq, Repr

/-- An atomic store event of call `k`: its conditional UPDATE (`upd k`) or
its read-back SELECT (`rb k`). -/
inductive ClaimEvent where
  | upd (k : Nat)
  | rb (k : Nat)
deriving DecidableEq, Repr

/-- Apply one store event to the jobs table, recording read-back outcomes as
`(caller index, success flag)` pairs. -/
def stepEvent (calls : List ClaimCall) (jid : Nat)
    (st : JobsTable × List (Nat × Bool)) (ev : ClaimEvent) :
    JobsTable × List (Nat × Bool) :=
  match ev with
  | .upd k =>
      match calls[k]? with
      | some c => (claimUpdate c.host c.proc jid c.now st.1, st.2)
      | none => st
  | .rb k =>
      match calls[k]? with
      | some c => (st.1, st.2 ++ [(k, claimReadback c.host c.proc jid st.1)])
      | none => st

/-- Run a sequence of store events from an intermediate state. -/
def runSchedFrom (calls : List ClaimCall) (jid : Nat)
    (sched : List ClaimEvent) (st : JobsTable × List (Nat × Bool)) :
    JobsTable × List (Nat × Bool) :=
  sched.foldl (stepEvent calls jid) st

/-- Run an interleaving of claim calls against an initial jobs table. -/
def runSched (calls : List ClaimCall) (jid : Nat) (sched : List ClaimEvent)
    (tbl : JobsTable) : JobsTable × List (Nat × Bool) :=
  runSchedFrom calls jid sched (tbl, [])

/-- Holds (`updBeforeRb k sched = true`) when the first event of call `k` occurring
in `sched` is not its read-back: within `sched`, `upd k` comes before
`rb k` (vacuously true when neither occurs). -/
def updBeforeRb (k : Nat) : List ClaimEvent → Bool
  | [] => true
  | ev :: rest =>
      if ev = ClaimEvent.rb k then false
      else if ev = ClaimEvent.upd k then true
      else updBeforeRb k rest

/-- Whether a store event belongs to one of the first `M` calls. -/
def eventIndexLt (M : Nat) : ClaimEvent → Bool
  | .upd k => decide (k < M)
  | .rb k => decide (k < M)

/-- A valid interleaving of `M` concurrent `claim_job` calls: every call
contributes exactly one UPDATE and one read-back, every event belongs to one
of the `M` calls, and each call's UPDATE precedes its read-back. -/
def validSched (M : Nat) (sched : List ClaimEvent) : Prop :=
  (∀ k, k < M →
      sched.count (ClaimEvent.upd k) = 1 ∧ sched.count (ClaimEvent.rb k) = 1) ∧
  (∀ ev ∈ sched, eventIndexLt M ev = true) ∧
  (∀ k, k < M → updBeforeRb k sched = true)

instance validSched_decidable (M : Nat) (sched : List ClaimEvent) :
    Decidable (validSched M sched) := by
  unfold validSched; infer_instance

/-- The read-back outcome an event contributes once the table is frozen. -/
def rbResult (calls : List ClaimCall) (jid : Nat) (tbl : JobsTable)
    (ev : ClaimEvent) : Option (Nat × Bool) :=
  match ev with
  | .upd _ => none
  | .rb k => (calls[k]?).map (fun c => (k, claimReadback c.host c.proc jid tbl))

/-- The row produced by a successful conditional claim UPDATE of caller
`cw` on the PENDING row `r0`. -/
def claimedRow (cw : ClaimCall) (r0 : Job) : Job :=
  { r0 with job_assigned_node := some cw.host,
            job_assigned_node_processor := some cw.proc,
            job_status := "CLAIMED",
            job_last_updated := cw.now }

/-- A concrete race: two processors, `host-A`/0 and `host-B`/1, interleave
their claim UPDATEs and read-backs on the single PENDING job 1. -/
def c1Calls : List ClaimCall := [⟨"host-A", 0, 5⟩, ⟨"host-B", 1, 6⟩]

/-- Both UPDATEs run before either read-back. -/
def c1Sched : List ClaimEvent :=
  [ClaimEvent.upd 0, ClaimEvent.upd 1, ClaimEvent.rb 1, ClaimEvent.rb 0]

/-- The single PENDING job of the concrete race. -/
def c1Job : Job :=
  { job_id := some 1, job_payload := "echo hi", job_status := "PENDING",
    job_last_updated := 0, job_submission_time := 0 }

/-- The row already claimed (and completed) by `host-A`/0, used to witness
the idempotent re-claim. -/
def c10Job : Job :=
  { job_id := some 1, job_payload := "echo hi", job_status := "COMPLETED",
    job_last_updated := 9, job_submission_time := 0,
    job_assigned_node := some "host-A",
    job_assigned_node_processor := some 0 }

/-- A PENDING job with no result metadata, the C7 scenario's start state. -/
def c7Job : Job :=
  { job_id := some 1, job_payload := "false", job_status := "PENDING",
    job_last_updated := 0, job_submission_time := 0 }

/-- The nodes table for the C2 scenario: `host-A` is registered. -/
def c2Nodes : List NodeRow :=
  [{ node_hostname := "host-A", node_status := "started",
     node_last_seen := 1 }]

/-- The C2 scenario's job: RUNNING on `host-A`, processor 0. -/
def c2Job : Job :=
  { job_id := some 1, job_payload := "sleep 30", job_status := "RUNNING",
    job_last_updated := 3, job_submission_time := 1,
    job_assigned_node := some "host-A",
    job_assigned_node_processor := some 0 }

/-- The metadata of the worker's late COMPLETED write in the C2 scenario. -/
def c2Meta : ResultMetadata :=
  { returncode := 0, start_timestamp := 3, end_timestamp := 9,
    duration_s := 6 }

/-- The specification's eligibility formula (§4.3), reading a job's tag set
as the set of elements of its possibly-absent tag array:
`J = ∅ ∨ (J ⊆ T ∧ J ∩ T ≠ ∅)`. -/
def specEligible (nodeTags : List String)
    (jobTags : Option (List String)) : Prop :=
  jobTags.getD [] = [] ∨
    ((∀ x ∈ jobTags.getD [], x ∈ nodeTags) ∧
      ∃ x ∈ jobTags.getD [], x ∈ nodeTags)

/-- C3 counterexample.  A PENDING job whose tag array is present but
empty (`job_tags = some []`, i.e. `J = ∅` as a set though not SQL NULL) is
eligible by the spec formula, yet the query predicate rejects it and a poll
by a node with tags `["cpu"]` does not return it: the claimed "iff" fails. -/
def c3Row : Job :=
  { job_id := some 7, job_payload := "true", job_tags := some [],
    job_status := "PENDING", job_last_updated := 0,
    job_submission_time := 0 }

/-- Two untagged PENDING jobs with equal submission times; the table lists
job 2 before job 1. -/
def c5JobA : Job :=
  { job_id := some 1, job_payload := "echo a", job_status := "PENDING",
    job_last_updated := 0, job_submission_time := 5 }

def c5JobB : Job :=
  { job_id := some 2, job_payload := "echo b", job_status := "PENDING",
    job_last_updated := 0, job_submission_time := 5 }

/-- The ordering the claim asserts for a poll's result: `submission_time`
ascending with `job_id` ascending as tie-break. -/
def fifoLe (a b : Job) : Prop :=
  a.job_submission_time < b.job_submission_time ∨
    (a.job_submission_time = b.job_submission_time ∧
      a.job_id.getD 0 ≤ b.job_id.getD 0)

instance fifoLe_decidable : DecidableRel fifoLe := fun a b => by
  unfold fifoLe; infer_instance

/-! ## The stdout log file

`handle_job` opens `<job_logs_root>/job_<id>_stdout.log` in mode `"w"` and
writes an opening banner (orchestrator.py lines 308-318); `cli.execute_job`
then opens the *same path* in mode `"w"` as the child's stdout sink
(cli.py line 134); after the child exits, `handle_job` reopens the path in
mode `"a"` and appends a closing banner (lines 349-355).  The file is
modelled as its string of bytes; banner field values are rendered with
`toString`, since the byte-exact Python `str` form is immaterial to the
bracketing property. -/

/-- The banner rule line `"-" * 80`. -/
def dashLine : String := String.mk (List.replicate 80 '-')

/-- The inner banner rule line `"+" * 80`. -/
def plusLine : String := String.mk (List.replicate 80 '+')

/-- Rendering of an optional field in a banner line. -/
def showOpt {α : Type} [ToString α] : Option α → String
  | none => "None"
  | some a => toString a

/-- The opening banner `handle_job` writes before spawning the child. -/
def openingBanner (job : Job) (startT : Nat) : String :=
  dashLine ++ "\n" ++
  "Job ID: " ++ showOpt job.job_id ++ "\n" ++
  "Job Payload: " ++ job.job_payload ++ "\n" ++
  "Job Tags: " ++ showOpt job.job_tags ++ "\n" ++
  "Job Submission Time: " ++ toString job.job_submission_time ++ "\n" ++
  "Job Started at: " ++ toString startT ++ "\n" ++
  "Job Metadata: " ++ toString (job.job_metadata.getD []) ++ "\n" ++
  plusLine ++ "\n"

/-- Rendering of the result-metadata mapping in the closing banner. -/
def renderResultMetadata (m : ResultMetadata) : String :=
  "returncode=" ++ toString m.returncode ++
  ", start_timestamp=" ++ toString m.start_timestamp ++
  ", end_timestamp=" ++ toString m.end_timestamp ++
  ", duration_s=" ++ toString m.duration_s

/-- The closing banner `handle_job` appends after the child exits. -/
def closingBanner (meta : ResultMetadata) (endT : Nat) : String :=
  plusLine ++ "\n" ++
  "Job Result Metadata: " ++ renderResultMetadata meta ++ "\n" ++
  "Job Completed at: " ++ toString endT ++ "\n" ++
  dashLine ++ "\n"

/-- How `open(path, mode)` affects the file's existing contents: mode `"w"`
truncates, mode `"a"` keeps. -/
inductive PyOpenMode where
  | write
  | append

def openContents : PyOpenMode → String → String
  | .write, _ => ""
  | .append, c => c

/-- A write `f.write(s)` appends to the open file's contents. -/
def fwrite (c s : String) : String := c ++ s

/-- The stdout log's final content across one `handle_job` run: the opening
banner is written to the freshly truncated file, `cli.execute_job`'s
`stdout.open("w")` truncates it again before the child writes `childOut`,
and the closing banner is appended. -/
def stdoutLogAfterRun (job : Job) (startT endT : Nat) (meta : ResultMetadata)
    (childOut : String) : String :=
  let afterBanner := fwrite (openContents PyOpenMode.write "")
    (openingBanner job startT)
  let afterSpawnOpen := openContents PyOpenMode.write afterBanner
  let afterChild := fwrite afterSpawnOpen childOut
  fwrite (openContents PyOpenMode.append afterChild) (closingBanner meta endT)

/-- The job of the C8 scenario. -/
def c8Job : Job :=
  { job_id := some 1, job_payload := "echo hi", job_status := "CLAIMED",
    job_last_updated := 2, job_submission_time := 0 }

/-- Result metadata of the C8 scenario's run. -/
def c8Meta : ResultMetadata :=
  { returncode := 0, start_timestamp := 3, end_timestamp := 9,
    duration_s := 6 }

/-- The runtime constructor of `Node` (models/node.py lines 11-26).  A
pydantic `BaseModel` validates field *types* only — absorbed here by the
Lean field types — and `node.py` declares no field validators, so no
value-level check exists and construction never fails; the `Option` result
exposes pydantic's ability to reject. -/
def nodeConstruct (hostname status : String) (tags : List String)
    (num_parallel_jobs : Int) (last_seen : Nat) : Option Node :=
  some { hostname := hostname, status := status, tags := tags,
         num_parallel_jobs := num_parallel_jobs, last_seen := last_seen }

/-- The runtime constructor of `Job` (models/job.py lines 14-40); like
`nodeConstruct`, type validation only — `job.py` declares no field
validators. -/
def jobConstruct (job_id : Option Nat) (job_payload : String)
    (job_env_variables : Option (List (String × String)))
    (job_tags : Option (List String)) (job_status : String)
    (job_last_updated job_submission_time : Nat)
    (job_assigned_node : Option String)
    (job_assigned_node_processor : Option Int)
    (job_result_metadata : Option ResultMetadata)
    (job_metadata : Option (List (String × String))) : Option Job :=
  some { job_id := job_id, job_payload := job_payload,
         job_env_variables := job_env_variables, job_tags := job_tags,
         job_status := job_status, job_last_updated := job_last_updated,
         job_submission_time := job_submission_time,
         job_assigned_node := job_assigned_node,
         job_assigned_node_processor := job_assigned_node_processor,
         job_result_metadata := job_result_metadata,
         job_metadata := job_metadata }

lemma claimRowUpdate_of_ne (host : String) (proc : Int) (jid now : Nat)
    (r : Job) (h : ¬(r.job_id = some jid ∧ r.job_status = "PENDING")) :
    claimRowUpdate host proc jid now r = r := by
  simp only [claimRowUpdate, if_neg h]

lemma list_map_self {α : Type} (f : α → α) :
    ∀ (l : List α), (∀ x ∈ l, f x = x) → l.map f = l
  | [], _ => rfl
  | a :: t, h => by
      rw [List.map_cons, h a (List.mem_cons_self a t),
        list_map_self f t (fun x hx => h x (List.mem_cons_of_mem a hx))]

lemma claimUpdate_frozen (host : String) (proc : Int) (jid now : Nat)
    (tbl : JobsTable)
    (h : ∀ r ∈ tbl, ¬(r.job_id = some jid ∧ r.job_status = "PENDING")) :
    claimUpdate host proc jid now tbl = tbl := by
  unfold claimUpdate
  exact list_map_self _ tbl
    (fun r hr => claimRowUpdate_of_ne host proc jid now r (h r hr))

lemma rowOf_decomp (jid : Nat) (pre post : List Job) (r : Job)
    (hpre : ∀ x ∈ pre, x.job_id ≠ some jid) (hid : r.job_id = some jid) :
    rowOf jid (pre ++ r :: post) = some r := by
  induction pre with
  | nil =>
      simp [rowOf, List.find?_cons, hid]
  | cons p pre ih =>
      have hp : ¬(p.job_id = some jid) := hpre p (List.mem_cons_self p pre)
      have ih' := ih (fun x hx => hpre x (List.mem_cons_of_mem p hx))
      simpa [rowOf, List.find?_cons, hp] using ih'

lemma claimUpdate_decomp (host : String) (proc : Int) (jid now : Nat)
    (pre post : List Job) (r : Job)
    (hpre : ∀ x ∈ pre, x.job_id ≠ some jid)
    (hpost : ∀ x ∈ post, x.job_id ≠ some jid) :
    claimUpdate host proc jid now (pre ++ r :: post) =
      pre ++ claimRowUpdate host proc jid now r :: post := by
  unfold claimUpdate
  rw [List.map_append, List.map_cons]
  have h1 : pre.map (claimRowUpdate host proc jid now) = pre :=
    list_map_self _ pre (fun x hx =>
      claimRowUpdate_of_ne host proc jid now x (fun hc => hpre x hx hc.1))
  have h2 : post.map (claimRowUpdate host proc jid now) = post :=
    list_map_self _ post (fun x hx =>
      claimRowUpdate_of_ne host proc jid now x (fun hc => hpost x hx hc.1))
  rw [h1, h2]

/-- Once no row of the table is both the claimed jid and PENDING, further
events leave the table unchanged and each read-back appends its check of the
frozen table. -/
lemma runSchedFrom_frozen (calls : List ClaimCall) (jid : Nat)
    (tbl : JobsTable)
    (h : ∀ r ∈ tbl, ¬(r.job_id = some jid ∧ r.job_status = "PENDING")) :
    ∀ (sched : List ClaimEvent) (res : List (Nat × Bool)),
      runSchedFrom calls jid sched (tbl, res) =
        (tbl, res ++ sched.filterMap (rbResult calls jid tbl)) := by
  intro sched
  induction sched with
  | nil => intro res; simp [runSchedFrom]
  | cons ev rest ih =>
      intro res
      have hstep : runSchedFrom calls jid (ev :: rest) (tbl, res) =
          runSchedFrom calls jid rest (stepEvent calls jid (tbl, res) ev) := by
        simp [runSchedFrom]
      rw [hstep]
      cases ev with
      | upd k =>
          cases hc : calls[k]? with
          | none =>
              simp [stepEvent, hc, ih res, rbResult]
          | some c =>
              have hfr := claimUpdate_frozen c.host c.proc jid c.now tbl h
              simp [stepEvent, hc, hfr, ih res, rbResult]
      | rb k =>
          cases hc : calls[k]? with
          | none =>
              simp [stepEvent, hc, ih res, rbResult]
          | some c =>
              simp [stepEvent, hc, ih (res ++ [(k, claimReadback c.host c.proc jid tbl)]),
                rbResult]

/-- The first event of a valid nonempty interleaving is some call's UPDATE. -/
lemma validSched_head (M : Nat) (sched : List ClaimEvent) (hM : 1 ≤ M)
    (hv : validSched M sched) :
    ∃ w s2, w < M ∧ sched = ClaimEvent.upd w :: s2 := by
  obtain ⟨hcount, hdom, horder⟩ := hv
  have hmem : ClaimEvent.upd 0 ∈ sched := by
    have h1 := (hcount 0 hM).1
    have : 0 < sched.count (ClaimEvent.upd 0) := by omega
    exact List.count_pos_iff.mp this
  cases hsched : sched with
  | nil => rw [hsched] at hmem; simp at hmem
  | cons e s2 =>
      have hdome := hdom e (by rw [hsched]; exact List.mem_cons_self e s2)
      cases e with
      | upd k =>
          have hk : k < M := by simpa [eventIndexLt] using hdome
          exact ⟨k, s2, hk, rfl⟩
      | rb k =>
          exfalso
          have hk : k < M := by simpa [eventIndexLt] using hdome
          have := horder k hk
          rw [hsched] at this
          simp [updBeforeRb] at this

lemma pairwise_distinct_symm (calls : List ClaimCall)
    (hdist : calls.Pairwise (fun a b => a.host ≠ b.host ∨ a.proc ≠ b.proc)) :
    ∀ i j (hi : i < calls.length) (hj : j < calls.length), i ≠ j →
      calls[i].host ≠ calls[j].host ∨ calls[i].proc ≠ calls[j].proc := by
  intro i j hi hj hij
  rcases Nat.lt_or_ge i j with h | h
  · exact List.pairwise_iff_getElem.mp hdist i j hi hj h
  · have hlt : j < i := by omega
    rcases List.pairwise_iff_getElem.mp hdist j i hj hi hlt with h' | h'
    · exact Or.inl (Ne.symm h')
    · exact Or.inr (Ne.symm h')

/-- C1 (mutual exclusion on claim).  Start from a store state whose only
row with the claimed `job_id` is PENDING.  Run any interleaving of `M ≥ 1`
concurrent `claim_job` calls — from `M` distinct processors, so their
`(host, proc)` identities are pairwise distinct — in which every call's
conditional UPDATE and read-back apply atomically in some order.  Then there
is a winner `w` whose call returns success, every other call returns failure,
and the final row is no longer PENDING: it is CLAIMED with
`(job_assigned_node, job_assigned_node_processor)` equal to the winner's
`(host, proc)`. -/
theorem claim_mutual_exclusion
    (calls : List ClaimCall) (jid : Nat) (sched : List ClaimEvent)
    (pre post : List Job) (r0 : Job)
    (hpre : ∀ r ∈ pre, r.job_id ≠ some jid)
    (hpost : ∀ r ∈ post, r.job_id ≠ some jid)
    (hid : r0.job_id = some jid) (hpend : r0.job_status = "PENDING")
    (hM : 1 ≤ calls.length)
    (hdist : calls.Pairwise (fun a b => a.host ≠ b.host ∨ a.proc ≠ b.proc))
    (hv : validSched calls.length sched) :
    ∃ w cw, calls[w]? = some cw ∧
      (w, true) ∈ (runSched calls jid sched (pre ++ r0 :: post)).2 ∧
      (∀ k b, (k, b) ∈ (runSched calls jid sched (pre ++ r0 :: post)).2 →
          (b = true ↔ k = w)) ∧
      (∀ k, k < calls.length →
          ∃ b, (k, b) ∈ (runSched calls jid sched (pre ++ r0 :: post)).2) ∧
      rowOf jid (runSched calls jid sched (pre ++ r0 :: post)).1 =
        some (claimedRow cw r0) ∧
      (claimedRow cw r0).job_status ≠ "PENDING" := by
  obtain ⟨w, s2, hw, hsched⟩ := validSched_head calls.length sched hM hv
  subst hsched
  have hcw : calls[w]? = some calls[w] := List.getElem?_eq_getElem hw
  set cw := calls[w] with hcwdef
  set tbl1 : JobsTable := pre ++ claimedRow cw r0 :: post with htbl1
  -- the first event performs the winning UPDATE
  have hstep1 : runSched calls jid (ClaimEvent.upd w :: s2) (pre ++ r0 :: post) =
      runSchedFrom calls jid s2 (tbl1, []) := by
    unfold runSched runSchedFrom
    rw [List.foldl_cons]
    have hst : stepEvent calls jid (pre ++ r0 :: post, []) (ClaimEvent.upd w) =
        (tbl1, []) := by
      have hupd : claimRowUpdate cw.host cw.proc jid cw.now r0 = claimedRow cw r0 := by
        simp only [claimRowUpdate, claimedRow, if_pos (And.intro hid hpend)]
      simp only [stepEvent, hcw]
      rw [claimUpdate_decomp cw.host cw.proc jid cw.now pre post r0 hpre hpost, hupd]
    rw [hst]
  -- after the winning UPDATE the table is frozen
  have hfrozen : ∀ r ∈ tbl1, ¬(r.job_id = some jid ∧ r.job_status = "PENDING") := by
    intro r hr hcon
    rcases List.mem_append.mp hr with h | h
    · exact hpre r h hcon.1
    · rcases List.mem_cons.mp h with h | h
      · subst h
        have : ("CLAIMED" : String) = "PENDING" := hcon.2
        simp at this
      · exact hpost r h hcon.1
  have hrun : runSched calls jid (ClaimEvent.upd w :: s2) (pre ++ r0 :: post) =
      (tbl1, s2.filterMap (rbResult calls jid tbl1)) := by
    rw [hstep1, runSchedFrom_frozen calls jid tbl1 hfrozen s2 []]
    simp
  have hrow : rowOf jid tbl1 = some (claimedRow cw r0) :=
    rowOf_decomp jid pre post (claimedRow cw r0) hpre hid
  have hrb : ∀ c : ClaimCall,
      (claimReadback c.host c.proc jid tbl1 = true ↔
        (cw.host = c.host ∧ cw.proc = c.proc)) := by
    intro c
    simp [claimReadback, hrow, claimedRow]
  -- characterize the recorded results
  have hmemres : ∀ k b, (k, b) ∈ s2.filterMap (rbResult calls jid tbl1) →
      ∃ c, calls[k]? = some c ∧ b = claimReadback c.host c.proc jid tbl1 := by
    intro k b hkb
    obtain ⟨ev, _hev, hres⟩ := List.mem_filterMap.mp hkb
    cases ev with
    | upd k' => simp [rbResult] at hres
    | rb k' =>
        cases hc : calls[k']? with
        | none => simp [rbResult, hc] at hres
        | some c =>
            simp only [rbResult, hc, Option.map_some', Option.some.injEq,
              Prod.mk.injEq] at hres
            obtain ⟨hk', hb⟩ := hres
            subst hk'
            exact ⟨c, hc, hb.symm⟩
  have hrbmem : ∀ k, k < calls.length → ClaimEvent.rb k ∈ s2 := by
    intro k hk
    have hcnt := (hv.1 k hk).2
    have hne : (ClaimEvent.upd w :: s2).count (ClaimEvent.rb k) =
        s2.count (ClaimEvent.rb k) :=
      List.count_cons_of_ne (by simp) s2
    rw [hne] at hcnt
    exact List.count_pos_iff.mp (by omega)
  refine ⟨w, cw, hcw, ?_, ?_, ?_, ?_, ?_⟩
  · -- the winner's read-back succeeds
    rw [hrun]
    apply List.mem_filterMap.mpr
    refine ⟨ClaimEvent.rb w, hrbmem w hw, ?_⟩
    simp only [rbResult, hcw, Option.map_some', Option.some.injEq, Prod.mk.injEq]
    exact ⟨trivial, ((hrb cw).mpr ⟨rfl, rfl⟩)⟩
  · -- only the winner succeeds
    rw [hrun]
    intro k b hkb
    obtain ⟨c, hc, hb⟩ := hmemres k b hkb
    obtain ⟨hklen, hcall⟩ := List.getElem?_eq_some.mp hc
    constructor
    · intro hbt
      by_contra hkw
      rw [hbt] at hb
      have heq : cw.host = c.host ∧ cw.proc = c.proc := (hrb c).mp hb.symm
      have hne' := pairwise_distinct_symm calls hdist w k hw hklen
        (fun he => hkw he.symm)
      rw [hcall, ← hcwdef] at hne'
      rcases hne' with h | h
      · exact h heq.1
      · exact h heq.2
    · intro hkw
      subst hkw
      have : c = cw := by
        rw [hcw] at hc
        exact (Option.some.inj hc).symm
      subst this
      rw [hb]
      exact (hrb cw).mpr ⟨rfl, rfl⟩
  · -- every call records a result
    intro k hk
    rw [hrun]
    refine ⟨claimReadback calls[k].host calls[k].proc jid tbl1, ?_⟩
    apply List.mem_filterMap.mpr
    refine ⟨ClaimEvent.rb k, hrbmem k hk, ?_⟩
    simp only [rbResult, List.getElem?_eq_getElem hk, Option.map_some']
  · rw [hrun]
    exact hrow
  · intro hcon
    have : ("CLAIMED" : String) = "PENDING" := hcon
    simp at this

/-- Witness for C1: the mutual-exclusion theorem applied to the concrete
two-processor race `c1Calls`/`c1Sched` on the one-row table `[c1Job]`. -/
theorem claim_mutual_exclusion_witness :
    ∃ w cw, c1Calls[w]? = some cw ∧
      (w, true) ∈ (runSched c1Calls 1 c1Sched ([] ++ c1Job :: [])).2 ∧
      (∀ k b, (k, b) ∈ (runSched c1Calls 1 c1Sched ([] ++ c1Job :: [])).2 →
          (b = true ↔ k = w)) ∧
      (∀ k, k < c1Calls.length →
          ∃ b, (k, b) ∈ (runSched c1Calls 1 c1Sched ([] ++ c1Job :: [])).2) ∧
      rowOf 1 (runSched c1Calls 1 c1Sched ([] ++ c1Job :: [])).1 =
        some (claimedRow cw c1Job) ∧
      (claimedRow cw c1Job).job_status ≠ "PENDING" :=
  claim_mutual_exclusion c1Calls 1 c1Sched [] [] c1Job
    (by decide) (by decide) rfl rfl (by decide) (by decide) (by decide)

/-- C4 (claim success criterion).  `claim_job` issues exactly one
conditional UPDATE: its table effect maps every row through
`claimRowUpdate`, which sets `(assigned_node, assigned_node_processor,
status, last_updated)` to `(host, proc, CLAIMED, now)` on the row with
`job_id = jid` and status PENDING and leaves every other row unchanged.  It
then reads back the assigned pair for `jid` and returns success iff a row
was found whose read-back equals `(host, proc)`; a missing row means
failure.  On failure the processor loop does not execute the job: its
iteration ends with the table exactly as the failed claim left it. -/
theorem claim_job_success_criterion (host : String) (proc : Int)
    (jid now : Nat) (tbl : JobsTable) :
    (claim_job host proc jid now tbl).2 = claimUpdate host proc jid now tbl ∧
    (∀ r ∈ tbl, ¬(r.job_id = some jid ∧ r.job_status = "PENDING") →
        claimRowUpdate host proc jid now r = r) ∧
    (∀ r ∈ tbl, r.job_id = some jid → r.job_status = "PENDING" →
        claimRowUpdate host proc jid now r =
          { r with job_assigned_node := some host,
                   job_assigned_node_processor := some proc,
                   job_status := "CLAIMED",
                   job_last_updated := now }) ∧
    ((claim_job host proc jid now tbl).1 = true ↔
      ∃ r', rowOf jid (claim_job host proc jid now tbl).2 = some r' ∧
        r'.job_assigned_node = some host ∧
        r'.job_assigned_node_processor = some proc) ∧
    (rowOf jid (claim_job host proc jid now tbl).2 = none →
      (claim_job host proc jid now tbl).1 = false) ∧
    (∀ tags tRun start endT tDone tFail exec job rest,
      get_pending_jobs tags 1 tbl = job :: rest →
      job.job_id = some jid →
      (claim_job host proc jid now tbl).1 = false →
      processorIteration host proc tags now tRun start endT tDone tFail exec tbl =
        (claim_job host proc jid now tbl).2) := by
  refine ⟨rfl, ?_, ?_, ?_, ?_, ?_⟩
  · intro r _ h
    exact claimRowUpdate_of_ne host proc jid now r h
  · intro r _ h1 h2
    simp only [claimRowUpdate, if_pos (And.intro h1 h2)]
  · show claimReadback host proc jid (claimUpdate host proc jid now tbl) = true ↔ _
    cases h : rowOf jid (claimUpdate host proc jid now tbl) with
    | none => simp [claimReadback, h, claim_job]
    | some r' => simp [claimReadback, h, claim_job]
  · intro h
    show claimReadback host proc jid (claimUpdate host proc jid now tbl) = false
    simp [claimReadback, show rowOf jid (claimUpdate host proc jid now tbl) = none from h]
  · intro tags tRun start endT tDone tFail exec job rest hpoll hjid hfail
    simp only [processorIteration, hpoll, hjid]
    simp only [claim_job] at hfail ⊢
    rw [if_neg (by rw [hfail]; exact Bool.false_ne_true)]

/-- Witness for C4 at a concrete table: one PENDING job 1, a claim by
`host-A`/0 succeeds against the read-back and a failed claim leaves the
processor iteration at the claim's table. -/
theorem claim_job_success_criterion_witness :
    ((claim_job "host-A" 0 1 5 [c1Job]).2 = claimUpdate "host-A" 0 1 5 [c1Job] ∧
      (∀ r ∈ [c1Job], ¬(r.job_id = some 1 ∧ r.job_status = "PENDING") →
          claimRowUpdate "host-A" 0 1 5 r = r) ∧
      (∀ r ∈ [c1Job], r.job_id = some 1 → r.job_status = "PENDING" →
          claimRowUpdate "host-A" 0 1 5 r =
            { r with job_assigned_node := some "host-A",
                     job_assigned_node_processor := some 0,
                     job_status := "CLAIMED",
                     job_last_updated := 5 }) ∧
      ((claim_job "host-A" 0 1 5 [c1Job]).1 = true ↔
        ∃ r', rowOf 1 (claim_job "host-A" 0 1 5 [c1Job]).2 = some r' ∧
          r'.job_assigned_node = some "host-A" ∧
          r'.job_assigned_node_processor = some 0) ∧
      (rowOf 1 (claim_job "host-A" 0 1 5 [c1Job]).2 = none →
        (claim_job "host-A" 0 1 5 [c1Job]).1 = false) ∧
      (∀ tags tRun start endT tDone tFail exec job rest,
        get_pending_jobs tags 1 [c1Job] = job :: rest →
        job.job_id = some 1 →
        (claim_job "host-A" 0 1 5 [c1Job]).1 = false →
        processorIteration "host-A" 0 tags 5 tRun start endT tDone tFail exec [c1Job] =
          (claim_job "host-A" 0 1 5 [c1Job]).2)) ∧
    (claim_job "host-A" 0 1 5 [c1Job]).1 = true :=
  ⟨claim_job_success_criterion "host-A" 0 1 5 [c1Job], by decide⟩

/-- C10 (re-claim by the current assignee is idempotent).  `claim_job`'s
result depends only on the read-back: if the only row with `job_id = jid` is
already out of PENDING but carries `(assigned_node, assigned_node_processor)
= (host, proc)`, a repeated `claim_job host proc jid` changes nothing — the
conditional UPDATE matches zero rows — and still returns success. -/
theorem claim_job_reclaim_idempotent (host : String) (proc : Int)
    (jid now : Nat) (pre post : List Job) (r0 : Job)
    (hpre : ∀ r ∈ pre, r.job_id ≠ some jid)
    (hpost : ∀ r ∈ post, r.job_id ≠ some jid)
    (hid : r0.job_id = some jid)
    (hstat : r0.job_status ≠ "PENDING")
    (hnode : r0.job_assigned_node = some host)
    (hproc : r0.job_assigned_node_processor = some proc) :
    claim_job host proc jid now (pre ++ r0 :: post) =
      (true, pre ++ r0 :: post) := by
  have hfrozen : ∀ r ∈ pre ++ r0 :: post,
      ¬(r.job_id = some jid ∧ r.job_status = "PENDING") := by
    intro r hr hcon
    rcases List.mem_append.mp hr with h | h
    · exact hpre r h hcon.1
    · rcases List.mem_cons.mp h with h | h
      · subst h; exact hstat hcon.2
      · exact hpost r h hcon.1
  have hupd : claimUpdate host proc jid now (pre ++ r0 :: post) =
      pre ++ r0 :: post :=
    claimUpdate_frozen host proc jid now (pre ++ r0 :: post) hfrozen
  have hrow : rowOf jid (pre ++ r0 :: post) = some r0 :=
    rowOf_decomp jid pre post r0 hpre hid
  simp [claim_job, hupd, claimReadback, hrow, hnode, hproc]

/-- Witness for C10: re-claiming the already-assigned job 1 from
`host-A`/0 succeeds and leaves the table unchanged. -/
theorem claim_job_reclaim_idempotent_witness :
    claim_job "host-A" 0 1 11 ([] ++ c10Job :: []) = (true, [] ++ c10Job :: []) :=
  claim_job_reclaim_idempotent "host-A" 0 1 11 [] [] c10Job
    (by decide) (by decide) rfl (by decide) rfl rfl

/-- C6 (non-zero exit is COMPLETED, not FAILED).  When the child process
spawns and exits with any code `rc` the executor returns normally
(`ExecResult.ok rc`, from `subprocess.run(..., check=False)`), `handle_job`
takes no error branch, and the worker writes the job to COMPLETED with
result metadata `{returncode = rc, start_timestamp, end_timestamp,
duration_s = end - start}`.  The FAILED status is written only on the
executor-exception branch (`ExecResult.err`), which leaves
`job_result_metadata` untouched. -/
theorem nonzero_exit_is_completed (jid tRun start endT tDone tFail : Nat)
    (rc : Int) (tbl : JobsTable) :
    handle_job jid tRun start endT tDone (ExecResult.ok rc) tbl =
      Except.ok (completedWrite jid tDone
        { returncode := rc, start_timestamp := start,
          end_timestamp := endT, duration_s := endT - start }
        (setRunningWrite jid tRun tbl)) ∧
    processJob jid tRun start endT tDone tFail (ExecResult.ok rc) tbl =
      tbl.map (fun r =>
        if r.job_id = some jid then
          { r with job_status := "COMPLETED", job_last_updated := tDone,
                   job_result_metadata := some
                     { returncode := rc, start_timestamp := start,
                       end_timestamp := endT, duration_s := endT - start } }
        else r) ∧
    processJob jid tRun start endT tDone tFail ExecResult.err tbl =
      tbl.map (fun r =>
        if r.job_id = some jid then
          { r with job_status := "FAILED", job_last_updated := tFail }
        else r) := by
  refine ⟨rfl, ?_, ?_⟩
  · show completedWrite jid tDone _ (setRunningWrite jid tRun tbl) = _
    simp only [completedWrite, setRunningWrite, List.map_map]
    apply List.map_congr_left
    intro r _
    by_cases h : r.job_id = some jid <;> simp [h]
  · show update_job_status jid "FAILED" tFail (setRunningWrite jid tRun tbl) = _
    simp only [update_job_status, setRunningWrite, List.map_map]
    apply List.map_congr_left
    intro r _
    by_cases h : r.job_id = some jid <;> simp [h]

lemma map_ifId_decomp (jid : Nat) (g : Job → Job) (pre post : List Job)
    (r0 : Job)
    (hpre : ∀ x ∈ pre, x.job_id ≠ some jid)
    (hpost : ∀ x ∈ post, x.job_id ≠ some jid)
    (hid : r0.job_id = some jid) :
    (pre ++ r0 :: post).map
        (fun r => if r.job_id = some jid then g r else r) =
      pre ++ g r0 :: post := by
  rw [List.map_append, List.map_cons, if_pos hid]
  rw [list_map_self _ pre (fun x hx => if_neg (hpre x hx)),
    list_map_self _ post (fun x hx => if_neg (hpost x hx))]

/-- C7 amended (result-metadata after the worker's terminal write).
Starting from a table whose unique row for `jid` carries no result metadata,
after the worker's post-claim handling (`processJob`, any executor outcome)
the row's `job_result_metadata` is non-null precisely when its status is COMPLETED;
in particular, on an executor exception the FAILED write of
`update_job_status` leaves `job_result_metadata` null. -/
theorem result_metadata_iff_completed (jid tRun start endT tDone tFail : Nat)
    (exec : ExecResult) (pre post : List Job) (r0 : Job)
    (hpre : ∀ x ∈ pre, x.job_id ≠ some jid)
    (hpost : ∀ x ∈ post, x.job_id ≠ some jid)
    (hid : r0.job_id = some jid)
    (hnone : r0.job_result_metadata = none) :
    ∃ r', rowOf jid
        (processJob jid tRun start endT tDone tFail exec (pre ++ r0 :: post)) =
        some r' ∧
      (r'.job_result_metadata ≠ none ↔ r'.job_status = "COMPLETED") ∧
      (exec = ExecResult.err →
        r'.job_status = "FAILED" ∧ r'.job_result_metadata = none) := by
  cases exec with
  | ok rc =>
      have hmap := (nonzero_exit_is_completed jid tRun start endT tDone tFail
        rc (pre ++ r0 :: post)).2.1
      rw [map_ifId_decomp jid _ pre post r0 hpre hpost hid] at hmap
      refine ⟨{ r0 with
                job_status := "COMPLETED",
                job_last_updated := tDone,
                job_result_metadata := some
                  { returncode := rc, start_timestamp := start,
                    end_timestamp := endT, duration_s := endT - start } },
        ?_, ?_, ?_⟩
      · rw [hmap]
        exact rowOf_decomp jid pre post _ hpre hid
      · simp
      · intro h; cases h
  | err =>
      have hmap := (nonzero_exit_is_completed jid tRun start endT tDone tFail
        0 (pre ++ r0 :: post)).2.2
      rw [map_ifId_decomp jid _ pre post r0 hpre hpost hid] at hmap
      refine ⟨{ r0 with job_status := "FAILED", job_last_updated := tFail },
        ?_, ?_, ?_⟩
      · rw [hmap]
        exact rowOf_decomp jid pre post _ hpre hid
      · constructor
        · intro hmeta
          exact absurd hnone (by simpa using hmeta)
        · intro hstat
          have : ("FAILED" : String) = "COMPLETED" := hstat
          simp at this
      · intro _
        exact ⟨rfl, hnone⟩

/-- Witness for the amended C7: job 1 is claimed, the executor raises, and
the worker's FAILED write leaves the metadata null — non-null iff
COMPLETED holds on the final row. -/
theorem result_metadata_iff_completed_witness :
    ∃ r', rowOf 1
        (processJob 1 3 4 5 6 7 ExecResult.err ([] ++ c7Job :: [])) = some r' ∧
      (r'.job_result_metadata ≠ none ↔ r'.job_status = "COMPLETED") ∧
      (ExecResult.err = ExecResult.err →
        r'.job_status = "FAILED" ∧ r'.job_result_metadata = none) :=
  result_metadata_iff_completed 1 3 4 5 6 7 ExecResult.err [] [] c7Job
    (by decide) (by decide) rfl rfl

/-- C7 counterexample.  The claim asserts that a row written FAILED by
the processor loop has non-null `result_metadata`.  Concretely: job 1 is
PENDING with null metadata, `host-A`/0 claims it, and the executor raises;
the loop's `update_job_status(..., FAILED)` writes only the status and
timestamp, so the final row has status FAILED and null
`result_metadata`, falsifying `result_metadata non-null ↔ status ∈
{COMPLETED, FAILED}`. -/
theorem failed_write_leaves_metadata_null_counterexample :
    (rowOf 1 (processJob 1 3 4 5 6 7 ExecResult.err
        (claim_job "host-A" 0 1 2 [c7Job]).2)).map Job.job_status =
      some "FAILED" ∧
    (rowOf 1 (processJob 1 3 4 5 6 7 ExecResult.err
        (claim_job "host-A" 0 1 2 [c7Job]).2)).map Job.job_result_metadata =
      some none := by
  decide

/-- C2 evaluated at the failing input.  `stop_node` moves the RUNNING
job 1 on `host-A` to INTERRUPTED, but the worker's subsequent COMPLETED
write (`handle_job`'s final UPDATE, whose WHERE clause tests `job_id` only
— it is *not* conditioned on `status = 'RUNNING'`) overwrites INTERRUPTED
with COMPLETED, contradicting the claimed interrupted-job guard. -/
theorem completed_write_overwrites_interrupted :
    ((rowOf 1 (stop_node "host-A" 4 (c2Nodes, [c2Job])).2).map
        Job.job_status = some "INTERRUPTED") ∧
    ((rowOf 1 (completedWrite 1 9 c2Meta
        (stop_node "host-A" 4 (c2Nodes, [c2Job])).2)).map
        Job.job_status = some "COMPLETED") := by
  decide

theorem eligibility_spec_counterexample :
    specEligible ["cpu"] c3Row.job_tags ∧
    pendingEligible ["cpu"] c3Row = false ∧
    c3Row ∉ get_pending_jobs ["cpu"] 10 [c3Row] := by
  refine ⟨Or.inl rfl, rfl, ?_⟩
  decide

/-- C3 amended (eligibility).  A poll with node tags `T` (unbounded by
the LIMIT: `limit = tbl.length` suffices) returns exactly the PENDING rows
that are untagged (`job_tags` NULL) or whose tag list `J` satisfies
`J ⊆ T ∧ J ∩ T ≠ ∅`; a job with empty tags in the sense of SQL NULL is
eligible on every node, whatever `T` is, but a job carrying an empty
(non-NULL) tag array is eligible on none. -/
theorem poll_eligibility_characterization (T : List String)
    (tbl : JobsTable) (r : Job) :
    (r ∈ get_pending_jobs T tbl.length tbl ↔
      r ∈ tbl ∧ pendingEligible T r = true) ∧
    (pendingEligible T r = true ↔
      (r.job_status = "PENDING" ∧
        (r.job_tags = none ∨
          ∃ l, r.job_tags = some l ∧
            (∀ x ∈ l, x ∈ T) ∧ ∃ x ∈ l, x ∈ T))) := by
  constructor
  · have hlen : (tbl.filter (pendingEligible T)).length ≤ tbl.length :=
      List.length_filter_le _ tbl
    have htake : get_pending_jobs T tbl.length tbl =
        orderBySubmissionTime (tbl.filter (pendingEligible T)) := by
      unfold get_pending_jobs
      apply List.take_of_length_le
      rw [orderBySubmissionTime, List.length_insertionSort]
      exact hlen
    rw [htake]
    unfold orderBySubmissionTime
    rw [(List.perm_insertionSort _ _).mem_iff, List.mem_filter]
  · unfold pendingEligible
    by_cases hT : T.isEmpty
    · have hTnil : T = [] := List.isEmpty_iff.mp hT
      cases htags : r.job_tags with
      | none =>
          simp [hT, htags]
      | some l =>
          simp only [hT, if_true, htags]
          constructor
          · intro h
            simp at h
          · rintro ⟨_, h | ⟨l', hl', _, ⟨x, hx, hxT⟩⟩⟩
            · exact absurd h (by simp)
            · rw [hTnil] at hxT
              simp at hxT
    · cases htags : r.job_tags with
      | none =>
          simp [hT, htags]
      | some l =>
          simp only [hT, if_false, htags, Bool.and_eq_true, beq_iff_eq]
          simp [tagsOverlap, tagsContainedIn, List.any_eq_true,
            List.all_eq_true, List.contains, List.elem_iff, and_comm]

/-- C5 counterexample.  The poll query orders by
`job_submission_time` only — it has no `job_id` tie-break — so with two
eligible rows of equal submission time the returned order follows the
store's row order: a poll returns `[job 2, job 1]`, which is not ordered by
`(submission_time, job_id)` ascending. -/
theorem fifo_tiebreak_counterexample :
    get_pending_jobs [] 10 [c5JobB, c5JobA] = [c5JobB, c5JobA] ∧
    ¬ List.Pairwise fifoLe [c5JobB, c5JobA] := by
  constructor
  · decide
  · intro h
    have := List.rel_of_pairwise_cons h (List.mem_singleton_self c5JobA)
    rcases this with h1 | h1
    · exact absurd h1 (by decide)
    · exact absurd h1.2 (by decide)

/-- C5 amended (FIFO within a poll).  Every poll returns at most
`limit` rows (the source default is `limit = 10`), and the returned list is
ordered by `job_submission_time` ascending; the relative order of rows with
equal submission times is not constrained by the query. -/
theorem poll_bounded_and_sorted (T : List String) (limit : Nat)
    (tbl : JobsTable) :
    (get_pending_jobs T limit tbl).length ≤ limit ∧
    (get_pending_jobs T limit tbl).Pairwise
      (fun a b => a.job_submission_time ≤ b.job_submission_time) := by
  constructor
  · exact List.length_take_le limit _
  · apply List.Pairwise.sublist (List.take_sublist limit _)
    unfold orderBySubmissionTime
    exact List.sorted_insertionSort
      (fun a b : Job => a.job_submission_time ≤ b.job_submission_time)
      (tbl.filter (pendingEligible T))

set_option maxRecDepth 100000 in
/-- C8 evaluated at the failing input.  After running job 1 with child
stdout `"hi\n"`, the log file consists of the captured stdout followed by
the closing banner only: `cli.execute_job` reopens the stdout path in write
mode, truncating the opening banner `handle_job` had written before the
spawn, so the final content does not begin with the (non-empty) opening
banner. -/
theorem stdout_log_opening_banner_truncated :
    stdoutLogAfterRun c8Job 3 9 c8Meta "hi\n" =
      "hi\n" ++ closingBanner c8Meta 9 ∧
    1 ≤ (openingBanner c8Job 3).data.length ∧
    ¬ ∃ rest, stdoutLogAfterRun c8Job 3 9 c8Meta "hi\n" =
        openingBanner c8Job 3 ++ rest := by
  refine ⟨by decide, by decide, ?_⟩
  rintro ⟨rest, h⟩
  have hdata : (stdoutLogAfterRun c8Job 3 9 c8Meta "hi\n").data =
      (openingBanner c8Job 3).data ++ rest.data := by
    rw [h]
    exact String.data_append _ _
  have h1 : (stdoutLogAfterRun c8Job 3 9 c8Meta "hi\n").data.take 1 =
      ['h'] := by decide
  have h2 : ((openingBanner c8Job 3).data ++ rest.data).take 1 = ['-'] := by
    rw [List.take_append_of_le_length (by decide)]
    decide
  rw [hdata, h2] at h1
  exact absurd h1 (by decide)

/-- C9 counterexample.  Constructing a `Node` with an empty hostname and
a negative `num_parallel_jobs`, and a `Job` with an empty payload, does not
fail: the pydantic models declare no validators, so these constructions
succeed. -/
theorem validated_constructors_counterexample :
    nodeConstruct "" "started" [] (-1) 0 ≠ none ∧
    jobConstruct none "" none none "PENDING" 0 0 none none none none ≠
      none := by
  decide

/-- C9 amended (constructors are total and pure).  The record
constructors perform type-level validation only: every type-correct input —
including empty hostnames, negative `num_parallel_jobs`, and empty payloads
— constructs the pure record carrying exactly the given field values, with
no persistence side effect. -/
theorem constructors_total_and_pure (hostname status : String)
    (tags : List String) (njobs : Int) (seen : Nat)
    (jid : Option Nat) (payload : String)
    (env : Option (List (String × String))) (jtags : Option (List String))
    (jstatus : String) (upd sub : Nat) (anode : Option String)
    (aproc : Option Int) (rmeta : Option ResultMetadata)
    (jmeta : Option (List (String × String))) :
    nodeConstruct hostname status tags njobs seen =
      some { hostname := hostname, status := status, tags := tags,
             num_parallel_jobs := njobs, last_seen := seen } ∧
    jobConstruct jid payload env jtags jstatus upd sub anode aproc rmeta
        jmeta =
      some { job_id := jid, job_payload := payload,
             job_env_variables := env, job_tags := jtags,
             job_status := jstatus, job_last_updated := upd,
             job_submission_time := sub, job_assigned_node := anode,
             job_assigned_node_processor := aproc,
             job_result_metadata := rmeta, job_metadata := jmeta } :=
  ⟨rfl, rfl⟩

end ClusterQueue
